import Mathlib

/-!
A shallow embedding of the library inventory manager
(`library-inventory-manager-Bhavya_Anand/__init__.py`): the `Book` value
object, the `LibraryInventory` repository, its JSON-file load/save
protocol, and the menu-level issue/return operations, together with
theorems settling the specification claims about them.

Modelling conventions:
  * Python strings are Lean `String`s; `str.lower` / `str.capitalize` are
    modelled on ASCII (`Char.toLower` / `Char.toUpper`), which covers every
    literal the program compares against.
  * The single storage location is modelled as `FileSys := Option FileData`:
    `none` is a missing file, `FileData.corrupt` a file whose contents do
    not parse as a JSON array of objects, and `FileData.entries es` a file
    parsing to the array `es`.  A parsed JSON object is an `Entry`: the four
    recognised keys as `Option String` values plus a flag `extra` recording
    whether the object carries any key other than the four (such a key makes
    `Book(**book_data)` raise `TypeError`).
  * Mutation is explicit state passing: a method on `self` becomes a
    function from the inventory (and file system) to the result paired with
    the new inventory (and file system).  In-place mutation of the aliased
    object returned by `search_by_isbn` is modelled by updating the first
    list element with the matching isbn, which is exactly the object the
    Python lookup returns.
  * Logging is kept only where a claim mentions it (the load path): a load
    returns the list of levels of the events it reports.
-/

set_option autoImplicit false
set_option linter.unusedVariables false

/-- One book record: the four instance attributes set by `Book.__init__`.
The source accepts any string as `status`; the two meaningful values are
`"available"` and `"issued"`. -/
structure Book where
  title : String
  author : String
  isbn : String
  status : String
deriving Repr, DecidableEq

/-- `Book.issue`: if the status is `"available"`, set it to `"issued"` and
report `True`; otherwise report `False` and mutate nothing.  The pair is
(returned bool, the object after the call). -/
def Book.issue (b : Book) : Bool × Book :=
  if b.status = "available" then (true, { b with status := "issued" }) else (false, b)

/-- `Book.return_book`: if the status is `"issued"`, set it to `"available"`
and report `True`; otherwise report `False` and mutate nothing. -/
def Book.return_book (b : Book) : Bool × Book :=
  if b.status = "issued" then (true, { b with status := "available" }) else (false, b)

/-- `Book.is_available`: `self.status == "available"`. -/
def Book.is_available (b : Book) : Bool :=
  b.status == "available"

/-- Python `str.capitalize`: first character uppercased, the rest
lowercased (ASCII model). -/
def pyCapitalize (s : String) : String :=
  match s.data with
  | [] => ""
  | c :: cs => String.mk (c.toUpper :: cs.map Char.toLower)

/-- Python `str.lower` (ASCII model), as the character list of the lowered
string. -/
def pyLower (s : String) : List Char :=
  s.data.map Char.toLower

/-- `Book.__str__`. -/
def Book.str (b : Book) : String :=
  "Title: " ++ b.title ++ ", Author: " ++ b.author ++ ", ISBN: " ++ b.isbn
    ++ ", Status: " ++ pyCapitalize b.status

/-- One object of the JSON array held by the storage file.  Each of the four
recognised keys is present (`some v`) or absent (`none`); `extra` is true
when the object has at least one further key, which `Book(**book_data)`
rejects with a `TypeError`. -/
structure Entry where
  title? : Option String
  author? : Option String
  isbn? : Option String
  status? : Option String
  extra : Bool
deriving Repr, DecidableEq

/-- `Book.to_dict`: the dictionary with exactly the four keys. -/
def Book.to_dict (b : Book) : Entry :=
  ⟨some b.title, some b.author, some b.isbn, some b.status, false⟩

/-- `Book(**book_data)` on one parsed object: raises (`none`) when a key
beyond the four is present or when `title`, `author` or `isbn` is missing;
a missing `status` falls back to the default `"available"`.  No validation
of the status value is performed. -/
def bookOfEntry (e : Entry) : Option Book :=
  if e.extra then none
  else
    match e.title?, e.author?, e.isbn? with
    | some t, some a, some i => some ⟨t, a, i, e.status?.getD "available"⟩
    | _, _, _ => none

/-- `[Book(**book_data) for book_data in data]`: all entries convert, or the
comprehension raises and the whole load fails (`none`). -/
def buildBooks : List Entry → Option (List Book)
  | [] => some []
  | e :: es =>
    match bookOfEntry e, buildBooks es with
    | some b, some bs => some (b :: bs)
    | _, _ => none

/-- Parsed contents of the storage file: either not a well-formed JSON
array of objects (`corrupt`, the `json.JSONDecodeError` path), or the list
of parsed objects. -/
inductive FileData where
  | corrupt
  | entries (es : List Entry)
deriving Repr, DecidableEq

/-- The storage location: `none` when the file does not exist. -/
abbrev FileSys := Option FileData

/-- Levels of the logging calls the load path makes. -/
inductive LogLevel where
  | info
  | warning
  | error
deriving Repr, DecidableEq

/-- `LibraryInventory._load_books`: missing file starts empty (info);
corrupt file starts empty (error); a parsed array converts all-or-nothing,
any raising entry resets the inventory to empty (error). -/
def load_books : FileSys → List Book × List LogLevel
  | none => ([], [.info])
  | some .corrupt => ([], [.error])
  | some (.entries es) =>
    match buildBooks es with
    | some bs => (bs, [.info])
    | none => ([], [.error])

/-- The repository: its in-memory list `self.books`. -/
structure LibraryInventory where
  books : List Book
deriving Repr, DecidableEq

/-- `LibraryInventory.__init__`: start with `[]`, then `_load_books`.
Construction never throws and never writes the storage location, so the
file system is returned unchanged. -/
def mkInventory (fs : FileSys) : LibraryInventory × FileSys × List LogLevel :=
  let r := load_books fs
  (⟨r.1⟩, fs, r.2)

/-- `LibraryInventory._save_books`: overwrite the storage location with the
JSON array `[book.to_dict() for book in self.books]`.  The write is a pure
function of the book list (`json.dump` with fixed arguments is
deterministic), independent of the previous file contents.  The second
argument is the storage state the write truncates and replaces. -/
def save_books (bs : List Book) (fs : FileSys) : FileSys :=
  some (.entries (bs.map Book.to_dict))

/-- A Python value passed to `add_book`: a `Book` instance or anything
else (which the `isinstance` guard rejects uniformly). -/
inductive PyVal where
  | book (b : Book)
  | other
deriving Repr, DecidableEq

/-- `LibraryInventory.add_book`: reject non-`Book` arguments; reject a
duplicate isbn with no mutation and no save; otherwise append and save. -/
def add_book (inv : LibraryInventory) (fs : FileSys) : PyVal → Bool × LibraryInventory × FileSys
  | .other => (false, inv, fs)
  | .book b =>
    if inv.books.any (fun c => c.isbn == b.isbn) then
      (false, inv, fs)
    else
      (true, ⟨inv.books ++ [b]⟩, save_books (inv.books ++ [b]) fs)

/-- Python `list.isPrefixOf`-style check used to model the `in` operator:
`leadsWith p s` holds when `p` is an initial segment of `s`. -/
def leadsWith : List Char → List Char → Bool
  | [], _ => true
  | _ :: _, [] => false
  | a :: as, b :: bs => a == b && leadsWith as bs

/-- Python's substring test `p in s` on character lists: `p` occurs
contiguously somewhere in `s`. -/
def occursIn (p : List Char) : List Char → Bool
  | [] => p.isEmpty
  | c :: cs => leadsWith p (c :: cs) || occursIn p cs

/-- `LibraryInventory.search_by_title`: keep the books whose lowered title
contains the lowered query; a pure read, state returned unchanged. -/
def search_by_title (inv : LibraryInventory) (fs : FileSys) (q : String) :
    List Book × LibraryInventory × FileSys :=
  (inv.books.filter (fun b => occursIn (pyLower q) (pyLower b.title)), inv, fs)

/-- `LibraryInventory.search_by_isbn`: the first book with the given isbn,
or `None`. -/
def search_by_isbn (inv : LibraryInventory) (i : String) : Option Book :=
  inv.books.find? (fun b => b.isbn == i)

/-- Replace the first book whose isbn is `i` by `f` of it: the in-place
mutation of the aliased object returned by `search_by_isbn`. -/
def updateFirst (bs : List Book) (i : String) (f : Book → Book) : List Book :=
  match bs with
  | [] => []
  | b :: rest => if b.isbn == i then f b :: rest else b :: updateFirst rest i f

/-- The menu operation `issue_book` (the spec's `issueByIsbn`): look the
isbn up; if found and available, call `Book.issue` on the aliased object
and, on its success, `_save_books`; every other path changes nothing.  The
triple is (success, inventory after, storage after). -/
def issue_book (inv : LibraryInventory) (fs : FileSys) (i : String) :
    Bool × LibraryInventory × FileSys :=
  match search_by_isbn inv i with
  | none => (false, inv, fs)
  | some b =>
    if b.is_available then
      let r := b.issue
      if r.1 then
        let books' := updateFirst inv.books i (fun _ => r.2)
        (true, ⟨books'⟩, save_books books' fs)
      else (false, inv, fs)
    else (false, inv, fs)

/-- The menu operation `return_book` (the spec's `returnByIsbn`): look the
isbn up; if found and not available, call `Book.return_book` on the aliased
object and, on its success, `_save_books`; every other path changes
nothing. -/
def return_book (inv : LibraryInventory) (fs : FileSys) (i : String) :
    Bool × LibraryInventory × FileSys :=
  match search_by_isbn inv i with
  | none => (false, inv, fs)
  | some b =>
    if !b.is_available then
      let r := b.return_book
      if r.1 then
        let books' := updateFirst inv.books i (fun _ => r.2)
        (true, ⟨books'⟩, save_books books' fs)
      else (false, inv, fs)
    else (false, inv, fs)

/-- `LibraryInventory.display_all`: returns `False` with a message when the
inventory is empty, otherwise prints header, every book via `__str__` in
list order, and a footer, and returns `True`.  The pair is (returned bool,
printed lines). -/
def display_all (inv : LibraryInventory) : Bool × List String :=
  if inv.books.isEmpty then
    (false, ["The library inventory is empty."])
  else
    (true, "--- Current Library Inventory ---" :: inv.books.map Book.str
      ++ ["-------------------------------"])

/-- `isbnUnique bs` holds when no two books of `bs` share an isbn. -/
def isbnUnique : List Book → Bool
  | [] => true
  | b :: bs => !(bs.any (fun c => c.isbn == b.isbn)) && isbnUnique bs

/-- Run a sequence of `add_book` calls. -/
def addAll (inv : LibraryInventory) (fs : FileSys) : List PyVal → LibraryInventory × FileSys
  | [] => (inv, fs)
  | v :: vs =>
    let r := add_book inv fs v
    addAll r.2.1 r.2.2 vs

/-- `n` rounds of `issue()` immediately followed by `return_book()` on one
record, all of whose reported results must be `True`. -/
def alternateOk : Nat → Book → Bool
  | 0, _ => true
  | Nat.succ n, b =>
    let r := b.issue
    let r2 := r.2.return_book
    r.1 && r2.1 && alternateOk n r2.2

/-! ## Helper lemmas -/

theorem alternateOk_of_available (n : Nat) (b : Book) (h : b.status = "available") :
    alternateOk n b = true := by
  induction n generalizing b with
  | zero => rfl
  | succ n ih =>
    have h1 : b.issue = (true, { b with status := "issued" }) := by
      simp [Book.issue, h]
    have h2 : ({ b with status := "issued" } : Book).return_book
        = (true, { b with status := "available" }) := by
      simp [Book.return_book]
    simp only [alternateOk, h1, h2, Bool.true_and]
    exact ih _ rfl

theorem leadsWith_iff (p s : List Char) : leadsWith p s = true ↔ ∃ r, s = p ++ r := by
  induction p generalizing s with
  | nil =>
    simp [leadsWith]
  | cons a as ih =>
    cases s with
    | nil => simp [leadsWith]
    | cons b bs =>
      simp only [leadsWith, Bool.and_eq_true, beq_iff_eq, ih, List.cons_append]
      constructor
      · rintro ⟨rfl, r, rfl⟩
        exact ⟨r, rfl⟩
      · rintro ⟨r, hr⟩
        injection hr with h1 h2
        exact ⟨h1.symm, r, h2⟩

theorem occursIn_iff (p s : List Char) : occursIn p s = true ↔ ∃ l r, s = l ++ p ++ r := by
  induction s with
  | nil =>
    cases p with
    | nil => exact ⟨fun _ => ⟨[], [], rfl⟩, fun _ => rfl⟩
    | cons c cs =>
      simp only [occursIn, List.isEmpty_cons]
      constructor
      · intro h
        simp at h
      · rintro ⟨l, r, h⟩
        cases l <;> simp at h
  | cons c cs ih =>
    simp only [occursIn, Bool.or_eq_true, leadsWith_iff, ih]
    constructor
    · rintro (⟨r, hr⟩ | ⟨l, r, hr⟩)
      · exact ⟨[], r, by simpa using hr⟩
      · exact ⟨c :: l, r, by simp [hr]⟩
    · rintro ⟨l, r, hr⟩
      cases l with
      | nil => exact Or.inl ⟨r, by simpa using hr⟩
      | cons d l' =>
        rw [List.cons_append, List.cons_append] at hr
        injection hr with h1 h2
        exact Or.inr ⟨l', r, h2⟩

theorem bookOfEntry_eq_none_iff (e : Entry) :
    bookOfEntry e = none
      ↔ e.title? = none ∨ e.author? = none ∨ e.isbn? = none ∨ e.extra = true := by
  obtain ⟨t, a, i, st, x⟩ := e
  cases x <;> cases t <;> cases a <;> cases i <;> simp [bookOfEntry]

theorem buildBooks_eq_none (es : List Entry) (e : Entry) (he : e ∈ es)
    (hbad : bookOfEntry e = none) : buildBooks es = none := by
  induction es with
  | nil => cases he
  | cons f fs ih =>
    rcases List.mem_cons.mp he with rfl | hmem
    · simp [buildBooks, hbad]
    · cases h1 : bookOfEntry f
      · simp [buildBooks, h1]
      · simp [buildBooks, h1, ih hmem]

theorem buildBooks_eq_map (es : List Entry)
    (h : ∀ e ∈ es, e.title?.isSome ∧ e.author?.isSome ∧ e.isbn?.isSome ∧ e.extra = false) :
    buildBooks es
      = some (es.map (fun e => Book.mk (e.title?.getD "") (e.author?.getD "")
          (e.isbn?.getD "") (e.status?.getD "available"))) := by
  induction es with
  | nil => rfl
  | cons f fs ih =>
    have hf := h f (List.mem_cons_self f fs)
    have hfs : ∀ e ∈ fs, e.title?.isSome ∧ e.author?.isSome ∧ e.isbn?.isSome ∧ e.extra = false :=
      fun e he => h e (List.mem_cons_of_mem f he)
    obtain ⟨tf, af, jf, sf, xf⟩ := f
    obtain ⟨ht, ha, hi, hx⟩ := hf
    rw [Option.isSome_iff_exists] at ht ha hi
    obtain ⟨t, rfl⟩ := ht
    obtain ⟨a, rfl⟩ := ha
    obtain ⟨i, rfl⟩ := hi
    simp only at hx
    subst hx
    simp [buildBooks, bookOfEntry, ih hfs]

theorem buildBooks_map_to_dict (bs : List Book) :
    buildBooks (bs.map Book.to_dict) = some bs := by
  induction bs with
  | nil => rfl
  | cons b bs ih => simp [buildBooks, bookOfEntry, Book.to_dict, ih]

theorem issue_spec (b : Book) :
    (b.issue.1 = true ↔ b.status = "available")
    ∧ (b.issue.1 = true → b.issue.2 = { b with status := "issued" })
    ∧ (b.issue.1 = false → b.issue.2 = b) := by
  by_cases h : b.status = "available" <;> simp [Book.issue, h]

theorem return_book_spec (b : Book) :
    (b.return_book.1 = true ↔ b.status = "issued")
    ∧ (b.return_book.1 = true → b.return_book.2 = { b with status := "available" })
    ∧ (b.return_book.1 = false → b.return_book.2 = b) := by
  by_cases h : b.status = "issued" <;> simp [Book.return_book, h]

theorem issue_twice_false (b : Book) : b.issue.2.issue.1 = false := by
  by_cases h : b.status = "available" <;> simp [Book.issue, h]

theorem return_book_twice_false (b : Book) : b.return_book.2.return_book.1 = false := by
  by_cases h : b.status = "issued" <;> simp [Book.return_book, h]

/-! ## Claim theorems -/

/-- C5: Book.issue succeeds exactly from status "available", and then only
flips the status to "issued"; Book.return_book succeeds exactly from
"issued" and flips it back to "available"; on failure neither mutates the
record.  Consequently a second immediate issue always reports failure, a
second immediate return always reports failure, and from "available" any
number of strictly alternating issue/return rounds succeeds throughout. -/
theorem C5_record_transitions (b : Book) :
    ((b.issue.1 = true ↔ b.status = "available")
      ∧ (b.issue.1 = true → b.issue.2 = { b with status := "issued" })
      ∧ (b.issue.1 = false → b.issue.2 = b))
    ∧ ((b.return_book.1 = true ↔ b.status = "issued")
      ∧ (b.return_book.1 = true → b.return_book.2 = { b with status := "available" })
      ∧ (b.return_book.1 = false → b.return_book.2 = b))
    ∧ b.issue.2.issue.1 = false
    ∧ b.return_book.2.return_book.1 = false
    ∧ (b.status = "available" → ∀ n, alternateOk n b = true) :=
  ⟨issue_spec b, return_book_spec b, issue_twice_false b, return_book_twice_false b,
    fun h n => alternateOk_of_available n b h⟩

/-- C5 witness: a concrete available record alternates successfully for
three rounds. -/
theorem C5_record_transitions_witness :
    alternateOk 3 (Book.mk "Dune" "Frank Herbert" "111" "available") = true :=
  (C5_record_transitions (Book.mk "Dune" "Frank Herbert" "111" "available")).2.2.2.2 rfl 3

/-- C7: construction is total; a missing storage file yields an empty
inventory, a corrupt one yields an empty inventory with an error-level
report, and construction never writes, deletes or repairs the storage
location. -/
theorem C7_construction (fs : FileSys) :
    (mkInventory none).1.books = []
    ∧ (mkInventory (some FileData.corrupt)).1.books = []
    ∧ LogLevel.error ∈ (mkInventory (some FileData.corrupt)).2.2
    ∧ (mkInventory fs).2.1 = fs :=
  ⟨rfl, rfl, by decide, rfl⟩

/-- C9: a second persist immediately after a first, with no intervening
mutation, overwrites the storage with identical contents (the serialized
form is a deterministic function of the in-memory sequence alone). -/
theorem C9_idempotent_persist (inv : LibraryInventory) (fs : FileSys) :
    save_books inv.books (save_books inv.books fs) = save_books inv.books fs := rfl

/-- C10: the isinstance guard makes add_book reject any non-Book argument
with False, leaving the in-memory sequence and the storage file untouched
(no save happens). -/
theorem C10_add_book_type_guard (inv : LibraryInventory) (fs : FileSys) :
    add_book inv fs PyVal.other = (false, inv, fs) := rfl

/-- C4 counterexample: on the empty repository the listing operation
returns the boolean False (plus a printed message), not an empty sequence
value, so the empty result is precisely a boolean flag. -/
theorem C4_counterexample :
    (display_all ⟨[]⟩).1 = false
    ∧ (display_all ⟨[]⟩).2 = ["The library inventory is empty."] :=
  ⟨rfl, rfl⟩

/-- C4 amended: display_all prints the full sequence in current order
(between a header and a footer) and returns a boolean that is true exactly
when the inventory is nonempty; the empty inventory is signalled by the
False flag plus a message, not by an empty sequence result. -/
theorem C4_display_all (inv : LibraryInventory) :
    ((display_all inv).1 = true ↔ inv.books ≠ [])
    ∧ (inv.books = [] → display_all inv = (false, ["The library inventory is empty."]))
    ∧ (inv.books ≠ [] → (display_all inv).2
        = "--- Current Library Inventory ---" :: inv.books.map Book.str
          ++ ["-------------------------------"]) := by
  by_cases h : inv.books = [] <;> simp [display_all, h]

/-- C4 witness: the amended statement evaluated on the empty repository. -/
theorem C4_display_all_witness :
    display_all ⟨[]⟩ = (false, ["The library inventory is empty."]) :=
  (C4_display_all ⟨[]⟩).2.1 rfl

/-- C3 counterexample: an entry whose status is outside the allowed enum
loads successfully (no validation), contradicting the claim that such a
load fails and leaves the inventory empty. -/
theorem C3_counterexample :
    (load_books (some (FileData.entries
        [Entry.mk (some "Tome") (some "Anon") (some "9") (some "lost") false]))).1
      = [Book.mk "Tome" "Anon" "9" "lost"]
    ∧ (load_books (some (FileData.entries
        [Entry.mk (some "Tome") (some "Anon") (some "9") (some "lost") false]))).1 ≠ [] :=
  ⟨rfl, by decide⟩

/-- C3 amended: the load is all-or-nothing only for entries that are
missing title, author or isbn, or carry an unexpected extra key — any such
entry empties the whole load; a missing status is silently defaulted to
"available", and status values outside the enum are accepted unchanged. -/
theorem C3_load_validation (es : List Entry) :
    ((∃ e ∈ es, e.title? = none ∨ e.author? = none ∨ e.isbn? = none ∨ e.extra = true) →
      (load_books (some (FileData.entries es))).1 = [])
    ∧ ((∀ e ∈ es, e.title?.isSome ∧ e.author?.isSome ∧ e.isbn?.isSome ∧ e.extra = false) →
      (load_books (some (FileData.entries es))).1
        = es.map (fun e => Book.mk (e.title?.getD "") (e.author?.getD "")
            (e.isbn?.getD "") (e.status?.getD "available"))) := by
  constructor
  · rintro ⟨e, he, hbad⟩
    have hb : bookOfEntry e = none := (bookOfEntry_eq_none_iff e).mpr hbad
    simp [load_books, buildBooks_eq_none es e he hb]
  · intro h
    simp [load_books, buildBooks_eq_map es h]

/-- C3 witness: a concrete entry missing its title empties the whole load,
and a concrete entry missing only its status loads with the default. -/
theorem C3_load_validation_witness :
    (load_books (some (FileData.entries
        [Entry.mk none (some "Anon") (some "9") (some "available") false]))).1 = []
    ∧ (load_books (some (FileData.entries
        [Entry.mk (some "Tome") (some "Anon") (some "9") none false]))).1
      = [Book.mk "Tome" "Anon" "9" "available"] :=
  ⟨(C3_load_validation [Entry.mk none (some "Anon") (some "9") (some "available") false]).1
      ⟨_, List.mem_cons_self _ _, Or.inl rfl⟩,
   by
    have h := (C3_load_validation
        [Entry.mk (some "Tome") (some "Anon") (some "9") none false]).2 (by decide)
    simpa using h⟩

/-- C6: saving any list of records (statuses in the allowed enum) and
constructing a repository over the saved storage reloads records equal in
all four fields and in the original order. -/
theorem C6_round_trip (bs : List Book) (fs : FileSys)
    (h : ∀ b ∈ bs, b.status = "available" ∨ b.status = "issued") :
    (mkInventory (save_books bs fs)).1.books = bs := by
  simp [mkInventory, save_books, load_books, buildBooks_map_to_dict]

/-- C6 witness: a concrete two-record round trip. -/
theorem C6_round_trip_witness :
    (∀ b ∈ [Book.mk "Dune" "Frank Herbert" "111" "available",
        Book.mk "Emma" "Jane Austen" "222" "issued"],
      b.status = "available" ∨ b.status = "issued")
    ∧ (mkInventory (save_books [Book.mk "Dune" "Frank Herbert" "111" "available",
        Book.mk "Emma" "Jane Austen" "222" "issued"] none)).1.books
      = [Book.mk "Dune" "Frank Herbert" "111" "available",
         Book.mk "Emma" "Jane Austen" "222" "issued"] :=
  ⟨by decide,
   C6_round_trip [Book.mk "Dune" "Frank Herbert" "111" "available",
      Book.mk "Emma" "Jane Austen" "222" "issued"] none (by decide)⟩

/-- C8: search_by_title returns exactly the books whose lowered title has
the lowered query as a contiguous substring, filtered in the repository's
current order, and both the in-memory state and the storage are returned
unchanged. -/
theorem C8_search_by_title (inv : LibraryInventory) (fs : FileSys) (q : String) :
    ((search_by_title inv fs q).1
        = inv.books.filter (fun b => occursIn (pyLower q) (pyLower b.title)))
    ∧ (∀ b : Book, occursIn (pyLower q) (pyLower b.title) = true
        ↔ ∃ l r, pyLower b.title = l ++ pyLower q ++ r)
    ∧ (search_by_title inv fs q).2.1 = inv
    ∧ (search_by_title inv fs q).2.2 = fs :=
  ⟨rfl, fun b => occursIn_iff (pyLower q) (pyLower b.title), rfl, rfl⟩

/-- C8 witness: a concrete case-insensitive partial-match search. -/
theorem C8_search_by_title_witness :
    (search_by_title ⟨[Book.mk "Dune" "Frank Herbert" "111" "available"]⟩ none "DUN").1
      = [Book.mk "Dune" "Frank Herbert" "111" "available"] := by
  rw [(C8_search_by_title ⟨[Book.mk "Dune" "Frank Herbert" "111" "available"]⟩ none "DUN").1]
  decide

theorem isbnUnique_cons (d : Book) (ds : List Book) :
    isbnUnique (d :: ds) = true ↔ (∀ c ∈ ds, c.isbn ≠ d.isbn) ∧ isbnUnique ds = true := by
  simp [isbnUnique]

theorem isbnUnique_append_single (bs : List Book) (b : Book)
    (h : isbnUnique bs = true) (hb : ∀ c ∈ bs, c.isbn ≠ b.isbn) :
    isbnUnique (bs ++ [b]) = true := by
  induction bs with
  | nil => simp [isbnUnique]
  | cons d ds ih =>
    rw [isbnUnique_cons] at h
    rw [List.cons_append, isbnUnique_cons]
    refine ⟨?_, ih h.2 (fun c hc => hb c (List.mem_cons_of_mem d hc))⟩
    intro c hc
    rcases List.mem_append.mp hc with hc | hc
    · exact h.1 c hc
    · have hcb : c = b := by simpa using hc
      subst hcb
      exact fun hcon => hb d (List.mem_cons_self d ds) hcon.symm

theorem addAll_preserves_unique (vs : List PyVal) (inv : LibraryInventory) (fs : FileSys)
    (h : isbnUnique inv.books = true) :
    isbnUnique (addAll inv fs vs).1.books = true := by
  induction vs generalizing inv fs with
  | nil => exact h
  | cons v vs ih =>
    cases v with
    | other => exact ih inv fs h
    | book b =>
      by_cases hd : inv.books.any (fun c => c.isbn == b.isbn) = true
      · simp only [addAll, add_book, hd, if_pos]
        exact ih inv fs h
      · have hd' : inv.books.any (fun c => c.isbn == b.isbn) = false := by
          simpa using hd
        have hb : ∀ c ∈ inv.books, c.isbn ≠ b.isbn := by
          intro c hc
          have := List.any_eq_false.mp hd' c hc
          simpa using this
        simp only [addAll, add_book, hd', Bool.false_eq_true, if_neg, not_false_eq_true]
        exact ih _ _ (isbnUnique_append_single inv.books b h hb)

theorem updateFirst_append (pre : List Book) (b : Book) (post : List Book) (i : String)
    (hb : b.isbn = i) (hpre : ∀ c ∈ pre, c.isbn ≠ i) (f : Book → Book) :
    updateFirst (pre ++ b :: post) i f = pre ++ f b :: post := by
  induction pre with
  | nil => simp [updateFirst, hb]
  | cons d ds ih =>
    have hd : d.isbn ≠ i := hpre d (List.mem_cons_self d ds)
    simp only [List.cons_append, updateFirst]
    rw [if_neg (by simpa using hd)]
    simp only [List.append_eq]
    rw [ih (fun c hc => hpre c (List.mem_cons_of_mem d hc))]

theorem search_by_isbn_eq_some_iff (inv : LibraryInventory) (i : String) (b : Book) :
    search_by_isbn inv i = some b
      ↔ b.isbn = i ∧ ∃ pre post, inv.books = pre ++ b :: post ∧ ∀ c ∈ pre, c.isbn ≠ i := by
  rw [search_by_isbn, List.find?_eq_some]
  constructor
  · rintro ⟨hpb, pre, post, hsplit, hpre⟩
    exact ⟨by simpa using hpb, pre, post, hsplit, fun c hc => by simpa using hpre c hc⟩
  · rintro ⟨hb, pre, post, hsplit, hpre⟩
    exact ⟨by simpa using hb, pre, post, hsplit, fun c hc => by simpa using hpre c hc⟩

theorem search_by_isbn_eq_none_iff (inv : LibraryInventory) (i : String) :
    search_by_isbn inv i = none ↔ ∀ c ∈ inv.books, c.isbn ≠ i := by
  rw [search_by_isbn, List.find?_eq_none]
  constructor <;> intro h c hc <;> simpa using h c hc

theorem first_split_unique {pre pre' post post' : List Book} {b b' : Book} {i : String}
    (h : pre ++ b :: post = pre' ++ b' :: post')
    (hb : b.isbn = i) (hb' : b'.isbn = i)
    (hpre : ∀ c ∈ pre, c.isbn ≠ i) (hpre' : ∀ c ∈ pre', c.isbn ≠ i) :
    pre = pre' ∧ b = b' ∧ post = post' := by
  induction pre generalizing pre' with
  | nil =>
    cases pre' with
    | nil =>
      simp only [List.nil_append] at h
      injection h with h1 h2
      exact ⟨rfl, h1, h2⟩
    | cons d ds =>
      simp only [List.nil_append, List.cons_append] at h
      injection h with h1 h2
      have hd : d.isbn ≠ i := hpre' d (List.mem_cons_self d ds)
      rw [← h1] at hd
      exact absurd hb hd
  | cons d ds ih =>
    cases pre' with
    | nil =>
      simp only [List.cons_append, List.nil_append] at h
      injection h with h1 h2
      have hd : d.isbn ≠ i := hpre d (List.mem_cons_self d ds)
      rw [h1] at hd
      exact absurd hb' hd
    | cons d' ds' =>
      simp only [List.cons_append] at h
      injection h with h1 h2
      obtain ⟨e1, e2, e3⟩ := ih h2 (fun c hc => hpre c (List.mem_cons_of_mem d hc))
        (fun c hc => hpre' c (List.mem_cons_of_mem d' hc))
      exact ⟨by rw [h1, e1], e2, e3⟩

theorem issue_by_isbn_spec (inv : LibraryInventory) (fs : FileSys) (i : String) :
    ((issue_book inv fs i).1 = true
        ↔ ∃ pre b post, inv.books = pre ++ b :: post ∧ b.isbn = i
            ∧ (∀ c ∈ pre, c.isbn ≠ i) ∧ b.status = "available")
    ∧ (∀ pre b post, inv.books = pre ++ b :: post → b.isbn = i →
        (∀ c ∈ pre, c.isbn ≠ i) → b.status = "available" →
        issue_book inv fs i
          = (true, ⟨pre ++ { b with status := "issued" } :: post⟩,
             save_books (pre ++ { b with status := "issued" } :: post) fs))
    ∧ ((issue_book inv fs i).1 = false → issue_book inv fs i = (false, inv, fs)) := by
  cases hfind : search_by_isbn inv i with
  | none =>
    have hall : ∀ c ∈ inv.books, c.isbn ≠ i := (search_by_isbn_eq_none_iff inv i).mp hfind
    have heq : issue_book inv fs i = (false, inv, fs) := by
      rw [issue_book, hfind]
    refine ⟨?_, ?_, fun _ => heq⟩
    · rw [heq]
      constructor
      · intro hcon
        simp at hcon
      · rintro ⟨pre, b, post, hsplit, hbi, -, -⟩
        refine absurd hbi (hall b ?_)
        rw [hsplit]
        exact List.mem_append_right pre (List.mem_cons_self b post)
    · rintro pre b post hsplit hbi - -
      refine absurd hbi (hall b ?_)
      rw [hsplit]
      exact List.mem_append_right pre (List.mem_cons_self b post)
  | some b =>
    obtain ⟨hbi, pre, post, hsplit, hpre⟩ := (search_by_isbn_eq_some_iff inv i b).mp hfind
    by_cases hav : b.status = "available"
    · have hupd : updateFirst inv.books i (fun _ => ({ b with status := "issued" } : Book))
          = pre ++ { b with status := "issued" } :: post := by
        rw [hsplit]
        exact updateFirst_append pre b post i hbi hpre _
      have hg : b.is_available = true := by simp [Book.is_available, hav]
      have hstep : b.issue = (true, { b with status := "issued" }) := by
        simp [Book.issue, hav]
      have heq : issue_book inv fs i
          = (true, ⟨pre ++ { b with status := "issued" } :: post⟩,
             save_books (pre ++ { b with status := "issued" } :: post) fs) := by
        rw [issue_book, hfind]
        simp only [hg, if_pos, hstep, hupd]
      refine ⟨?_, ?_, ?_⟩
      · rw [heq]
        exact ⟨fun _ => ⟨pre, b, post, hsplit, hbi, hpre, hav⟩, fun _ => rfl⟩
      · rintro pre' b' post' hsplit' hbi' hpre' hav'
        obtain ⟨e1, e2, e3⟩ :=
          first_split_unique (hsplit'.symm.trans hsplit) hbi' hbi hpre' hpre
        subst e1
        subst e2
        subst e3
        exact heq
      · intro hcon
        rw [heq] at hcon
        simp at hcon
    · have hg : b.is_available = false := by simp [Book.is_available, hav]
      have heq : issue_book inv fs i = (false, inv, fs) := by
        rw [issue_book, hfind]
        simp only [hg, Bool.false_eq_true, if_neg, not_false_eq_true]
      refine ⟨?_, ?_, fun _ => heq⟩
      · rw [heq]
        constructor
        · intro hcon
          simp at hcon
        · rintro ⟨pre', b', post', hsplit', hbi', hpre', hav'⟩
          obtain ⟨e1, e2, e3⟩ :=
            first_split_unique (hsplit'.symm.trans hsplit) hbi' hbi hpre' hpre
          rw [e2] at hav'
          exact absurd hav' hav
      · rintro pre' b' post' hsplit' hbi' hpre' hav'
        obtain ⟨e1, e2, e3⟩ :=
          first_split_unique (hsplit'.symm.trans hsplit) hbi' hbi hpre' hpre
        rw [e2] at hav'
        exact absurd hav' hav

theorem return_by_isbn_spec (inv : LibraryInventory) (fs : FileSys) (i : String) :
    ((return_book inv fs i).1 = true
        ↔ ∃ pre b post, inv.books = pre ++ b :: post ∧ b.isbn = i
            ∧ (∀ c ∈ pre, c.isbn ≠ i) ∧ b.status = "issued")
    ∧ (∀ pre b post, inv.books = pre ++ b :: post → b.isbn = i →
        (∀ c ∈ pre, c.isbn ≠ i) → b.status = "issued" →
        return_book inv fs i
          = (true, ⟨pre ++ { b with status := "available" } :: post⟩,
             save_books (pre ++ { b with status := "available" } :: post) fs))
    ∧ ((return_book inv fs i).1 = false → return_book inv fs i = (false, inv, fs)) := by
  cases hfind : search_by_isbn inv i with
  | none =>
    have hall : ∀ c ∈ inv.books, c.isbn ≠ i := (search_by_isbn_eq_none_iff inv i).mp hfind
    have heq : return_book inv fs i = (false, inv, fs) := by
      rw [return_book, hfind]
    refine ⟨?_, ?_, fun _ => heq⟩
    · rw [heq]
      constructor
      · intro hcon
        simp at hcon
      · rintro ⟨pre, b, post, hsplit, hbi, -, -⟩
        refine absurd hbi (hall b ?_)
        rw [hsplit]
        exact List.mem_append_right pre (List.mem_cons_self b post)
    · rintro pre b post hsplit hbi - -
      refine absurd hbi (hall b ?_)
      rw [hsplit]
      exact List.mem_append_right pre (List.mem_cons_self b post)
  | some b =>
    obtain ⟨hbi, pre, post, hsplit, hpre⟩ := (search_by_isbn_eq_some_iff inv i b).mp hfind
    by_cases his : b.status = "issued"
    · have hupd : updateFirst inv.books i (fun _ => ({ b with status := "available" } : Book))
          = pre ++ { b with status := "available" } :: post := by
        rw [hsplit]
        exact updateFirst_append pre b post i hbi hpre _
      have hg : b.is_available = false := by
        simp [Book.is_available, his]
      have hstep : b.return_book = (true, { b with status := "available" }) := by
        simp [Book.return_book, his]
      have heq : return_book inv fs i
          = (true, ⟨pre ++ { b with status := "available" } :: post⟩,
             save_books (pre ++ { b with status := "available" } :: post) fs) := by
        rw [return_book, hfind]
        simp only [hg, Bool.not_false, if_pos, hstep, hupd]
      refine ⟨?_, ?_, ?_⟩
      · rw [heq]
        exact ⟨fun _ => ⟨pre, b, post, hsplit, hbi, hpre, his⟩, fun _ => rfl⟩
      · rintro pre' b' post' hsplit' hbi' hpre' his'
        obtain ⟨e1, e2, e3⟩ :=
          first_split_unique (hsplit'.symm.trans hsplit) hbi' hbi hpre' hpre
        subst e1
        subst e2
        subst e3
        exact heq
      · intro hcon
        rw [heq] at hcon
        simp at hcon
    · have heq : return_book inv fs i = (false, inv, fs) := by
        rw [return_book, hfind]
        by_cases hav : b.status = "available"
        · have hg : b.is_available = true := by simp [Book.is_available, hav]
          simp only [hg, Bool.not_true, Bool.false_eq_true, if_neg, not_false_eq_true]
        · have hg : b.is_available = false := by simp [Book.is_available, hav]
          have hstep : b.return_book = (false, b) := by simp [Book.return_book, his]
          simp only [hg, Bool.not_false, if_pos, hstep, Bool.false_eq_true, if_neg,
            not_false_eq_true]
      refine ⟨?_, ?_, fun _ => heq⟩
      · rw [heq]
        constructor
        · intro hcon
          simp at hcon
        · rintro ⟨pre', b', post', hsplit', hbi', hpre', his'⟩
          obtain ⟨e1, e2, e3⟩ :=
            first_split_unique (hsplit'.symm.trans hsplit) hbi' hbi hpre' hpre
          rw [e2] at his'
          exact absurd his' his
      · rintro pre' b' post' hsplit' hbi' hpre' his'
        obtain ⟨e1, e2, e3⟩ :=
          first_split_unique (hsplit'.symm.trans hsplit) hbi' hbi hpre' hpre
        rw [e2] at his'
        exact absurd his' his

/-- C1 counterexample: in a repository holding two records with the same
isbn (reachable by loading a file with duplicate isbns, which the load does
not reject), a record with isbn "1" and status "available" exists, yet
issuing isbn "1" returns false, because only the first record with that
isbn (here an issued one) is consulted. -/
theorem C1_counterexample :
    (Book.mk "Copy" "Y" "1" "available"
        ∈ (LibraryInventory.mk [Book.mk "Orig" "X" "1" "issued",
            Book.mk "Copy" "Y" "1" "available"]).books
      ∧ (Book.mk "Copy" "Y" "1" "available").status = "available")
    ∧ (issue_book (LibraryInventory.mk [Book.mk "Orig" "X" "1" "issued",
        Book.mk "Copy" "Y" "1" "available"]) none "1").1 = false :=
  ⟨⟨by decide, rfl⟩, rfl⟩

/-- C1 amended: issueByIsbn returns true iff the FIRST record with the
given isbn in sequence order exists and is "available" (later records with
the same isbn are never consulted); on success exactly that record becomes
"issued" and the full new set is persisted to storage; on any failure the
operation returns false and neither the in-memory sequence nor the storage
changes.  Symmetrically returnByIsbn succeeds iff the first record with the
isbn is "issued", setting it to "available" and persisting. -/
theorem C1_issue_return_by_isbn (inv : LibraryInventory) (fs : FileSys) (i : String) :
    (((issue_book inv fs i).1 = true
        ↔ ∃ pre b post, inv.books = pre ++ b :: post ∧ b.isbn = i
            ∧ (∀ c ∈ pre, c.isbn ≠ i) ∧ b.status = "available")
      ∧ (∀ pre b post, inv.books = pre ++ b :: post → b.isbn = i →
          (∀ c ∈ pre, c.isbn ≠ i) → b.status = "available" →
          issue_book inv fs i
            = (true, ⟨pre ++ { b with status := "issued" } :: post⟩,
               save_books (pre ++ { b with status := "issued" } :: post) fs))
      ∧ ((issue_book inv fs i).1 = false → issue_book inv fs i = (false, inv, fs)))
    ∧ (((return_book inv fs i).1 = true
        ↔ ∃ pre b post, inv.books = pre ++ b :: post ∧ b.isbn = i
            ∧ (∀ c ∈ pre, c.isbn ≠ i) ∧ b.status = "issued")
      ∧ (∀ pre b post, inv.books = pre ++ b :: post → b.isbn = i →
          (∀ c ∈ pre, c.isbn ≠ i) → b.status = "issued" →
          return_book inv fs i
            = (true, ⟨pre ++ { b with status := "available" } :: post⟩,
               save_books (pre ++ { b with status := "available" } :: post) fs))
      ∧ ((return_book inv fs i).1 = false → return_book inv fs i = (false, inv, fs))) :=
  ⟨issue_by_isbn_spec inv fs i, return_by_isbn_spec inv fs i⟩

/-- C1 witness: issuing the only, available record succeeds, flips it to
issued and persists the new set. -/
theorem C1_issue_return_by_isbn_witness :
    issue_book ⟨[Book.mk "Dune" "Frank Herbert" "111" "available"]⟩ none "111"
      = (true, ⟨[Book.mk "Dune" "Frank Herbert" "111" "issued"]⟩,
         save_books [Book.mk "Dune" "Frank Herbert" "111" "issued"] none) :=
  (C1_issue_return_by_isbn ⟨[Book.mk "Dune" "Frank Herbert" "111" "available"]⟩ none "111").1.2.1
    [] (Book.mk "Dune" "Frank Herbert" "111" "available") [] rfl rfl (by simp) rfl

/-- C2 counterexample: a repository constructed over a storage file whose
array repeats an isbn is a reachable state whose in-memory sequence holds
two records with the same isbn, already after the empty sequence of
add_book calls. -/
theorem C2_counterexample :
    (mkInventory (some (FileData.entries
        [Entry.mk (some "A") (some "B") (some "1") (some "available") false,
         Entry.mk (some "C") (some "D") (some "1") (some "available") false]))).1.books.map
        Book.isbn
      = ["1", "1"]
    ∧ isbnUnique (mkInventory (some (FileData.entries
        [Entry.mk (some "A") (some "B") (some "1") (some "available") false,
         Entry.mk (some "C") (some "D") (some "1") (some "available") false]))).1.books
      = false :=
  ⟨rfl, rfl⟩

/-- C2 amended: starting from a repository state whose sequence has at most
one record per isbn (in particular the empty state; loaded states may
violate this), every sequence of add_book calls preserves that uniqueness;
an add_book whose isbn already occurs returns failure and changes neither
the sequence nor the storage, and an add_book with a fresh isbn appends the
record at the end, persists the full set, and returns success. -/
theorem C2_add_book_unique (inv : LibraryInventory) (fs : FileSys)
    (h : isbnUnique inv.books = true) :
    (∀ vs, isbnUnique (addAll inv fs vs).1.books = true)
    ∧ (∀ b : Book, (∃ c ∈ inv.books, c.isbn = b.isbn) →
        add_book inv fs (PyVal.book b) = (false, inv, fs))
    ∧ (∀ b : Book, (∀ c ∈ inv.books, c.isbn ≠ b.isbn) →
        add_book inv fs (PyVal.book b)
          = (true, ⟨inv.books ++ [b]⟩, save_books (inv.books ++ [b]) fs)) := by
  refine ⟨fun vs => addAll_preserves_unique vs inv fs h, ?_, ?_⟩
  · rintro b ⟨c, hc, hci⟩
    have hany : inv.books.any (fun c => c.isbn == b.isbn) = true := by
      simp only [List.any_eq_true]
      exact ⟨c, hc, by simpa using hci⟩
    simp [add_book, hany]
  · intro b hb
    have hany : inv.books.any (fun c => c.isbn == b.isbn) = false := by
      simp only [List.any_eq_false]
      intro c hc
      simpa using hb c hc
    simp [add_book, hany]

/-- C2 witness: from the empty repository, adding a book and then a second
book with the same isbn keeps the sequence duplicate-free. -/
theorem C2_add_book_unique_witness :
    isbnUnique (addAll ⟨[]⟩ none
      [PyVal.book (Book.mk "Dune" "Frank Herbert" "111" "available"),
       PyVal.book (Book.mk "Sand" "X" "111" "available")]).1.books = true :=
  (C2_add_book_unique ⟨[]⟩ none rfl).1
    [PyVal.book (Book.mk "Dune" "Frank Herbert" "111" "available"),
     PyVal.book (Book.mk "Sand" "X" "111" "available")]
